import Mathlib

/-!
Verification of the cloudpipe job lifecycle engine.

This file contains a shallow embedding of the core data model and
operations of the cloudpipe repository (Go): the job model and its
validator (`job.go`), HTTP basic authentication (`auth.go`), the Mongo
storage operations `ClaimJob` / `ListJobs` / `UpdateJob` (`storage.go`),
the kill handler's job lookup (`handlers.go`), the JSON wire codec of
`SubmittedJob` (struct tags plus the `StoredTime` marshaller), and the
per-job executor `Execute` (`runner.go`).  Pure functions are translated
directly; the executor's interactions with Docker and Mongo are modelled
by an explicit environment of call results and an event trace.
-/

set_option autoImplicit false

namespace Cloudpipe

/-! ## Status and result constants (job.go) -/

def ResultBinary : String := "binary"

def ResultPickle : String := "pickle"

def StatusWaiting : String := "waiting"

def StatusQueued : String := "queued"

def StatusProcessing : String := "processing"

def StatusDone : String := "done"

def StatusError : String := "error"

def StatusKilled : String := "killed"

def StatusStalled : String := "stalled"

/-! ## API error codes (codes.go) -/

def CodeCredentialsMissing : String := "ANONE"

def CodeCredentialsIncorrect : String := "AFAIL"

def CodeMissingCommand : String := "JCMD"

def CodeInvalidResultSource : String := "JRSRC"

def CodeInvalidResultType : String := "JRTYPE"

/-! ## Data model (job.go, auth.go)

Byte strings (`[]byte` in Go) are modelled as `List Nat`, one entry per
byte.  Go maps with string keys are modelled as association lists.
`StoredTime` is an `int64` count of UTC nanoseconds since the epoch, so
it is modelled as `Int`.
-/

/-- The bytes of a Go string, as produced by the `[]byte(s)` conversion
(UTF-8 encoding). -/
def strBytes (s : String) : List Nat :=
  s.toUTF8.toList.map (fun b => b.toNat)

/-- Resource metrics collected for a job (job.go `Collected`). -/
structure Collected where
  cpuTimeUser : Nat
  cpuTimeSystem : Nat
  memoryFailCount : Nat
  memoryMaxUsage : Nat
deriving DecidableEq, Repr

/-- A user-submitted compute task (job.go `Job`).  Field names follow the
Go struct; `name`, `profile` and `dependsOn` are pointers in Go and are
modelled as `Option`. -/
structure Job where
  command : String
  name : Option String
  core : String
  multicore : Int
  restartable : Bool
  tags : List (String × String)
  layers : List String
  volumes : List String
  environment : List (String × String)
  resultSource : String
  resultType : String
  maxRuntime : Int
  stdin : List Nat
  profile : Option Bool
  dependsOn : Option String
deriving DecidableEq, Repr

/-- A Job that has been accepted into storage (job.go `SubmittedJob`).
The embedded Go `Job` is modelled as the `job` field (mgo stores it as
the `job` subdocument, hence the `job.name` keys used by queries). -/
structure SubmittedJob where
  job : Job
  createdAt : Int
  startedAt : Int
  finishedAt : Int
  status : String
  result : List Nat
  returnCode : String
  runtime : Int
  queueDelay : Int
  overheadDelay : Int
  stderr : String
  stdout : String
  collected : Collected
  jid : Nat
  account : String
  containerID : String
  killRequested : Bool
deriving DecidableEq, Repr

/-- A user of the cluster (auth.go `Account`). -/
structure Account where
  name : String
  admin : Bool
  totalRuntime : Int
  totalJobs : Int
deriving DecidableEq, Repr

/-! ## Validator (job.go `Job.Validate`) -/

/-- The `result_source` acceptance condition of `Job.Validate`: the
literal string `stdout`, or any string beginning with `file:`. -/
def resultSourceOk (j : Job) : Prop :=
  j.resultSource = "stdout" ∨ j.resultSource.startsWith "file:" = true

/-- The `result_type` acceptance condition of `Job.Validate`: membership
in the `validResultType` map, whose keys are `binary` and `pickle`. -/
def resultTypeOk (j : Job) : Prop :=
  j.resultType = ResultBinary ∨ j.resultType = ResultPickle

instance (j : Job) : Decidable (resultSourceOk j) := by
  unfold resultSourceOk; infer_instance

instance (j : Job) : Decidable (resultTypeOk j) := by
  unfold resultTypeOk; infer_instance

/-- Validation of a submission (job.go `Job.Validate`).  The Go function
returns `*APIError`; only the error code is modelled (the message and
hint strings are human-readable text, and the JRTYPE hint is assembled
by iterating a Go map in unspecified order). -/
def Job.validate (j : Job) : Option String :=
  if j.command = "" then some CodeMissingCommand
  else if ¬resultSourceOk j then some CodeInvalidResultSource
  else if ¬resultTypeOk j then some CodeInvalidResultType
  else none

/-! ## Authentication (auth.go `Authenticate`)

The Go handler reads HTTP basic-auth credentials from the request
(`r.BasicAuth()`, modelled as `Option (String × String)`), compares them
against the configured administrator credentials, and otherwise fails.
It never calls the pluggable `AuthService`; the definition below takes
no auth-service argument because the source function consults none. -/

/-- The configured administrator credentials (context.go `Settings`,
fields `AdminName` / `AdminKey`). -/
structure AuthSettings where
  adminName : String
  adminKey : String
deriving DecidableEq, Repr

/-- auth.go `Authenticate`: missing credentials yield `ANONE`; a pair
matching non-empty configured admin credentials yields the admin
account; everything else yields `AFAIL`. -/
def authenticate (s : AuthSettings) (creds : Option (String × String)) :
    Except String Account :=
  match creds with
  | none => .error CodeCredentialsMissing
  | some (accountName, apiKey) =>
    if s.adminName ≠ "" ∧ s.adminKey ≠ "" then
      if accountName = s.adminName ∧ apiKey = s.adminKey then
        .ok { name := accountName, admin := true, totalRuntime := 0, totalJobs := 0 }
      else .error CodeCredentialsIncorrect
    else .error CodeCredentialsIncorrect

/-! ## Job queries (storage.go `JobQuery`, `MongoStorage.ListJobs`) -/

/-- Query parameters for fetching jobs (storage.go `JobQuery`).  `limit`,
`before` and `after` are `0` when unset, matching the Go zero values. -/
structure JobQuery where
  accountName : String
  jids : List Nat
  names : List String
  statuses : List String
  limit : Nat
  before : Nat
  after : Nat
deriving DecidableEq, Repr

/-- The single `_id` constraint of the Mongo query document built by
`ListJobs`.  `bson.M` is a Go map, so assigning `q["_id"]` twice keeps
only the second value; the embedding makes the constraint a single slot
for exactly that reason. -/
inductive IdFilter
  | any
  | lt (b : Nat)
  | gte (a : Nat)
  | eq (v : Nat)
  | isIn (vs : List Nat)
deriving DecidableEq, Repr

/-- Evaluation of the `_id` constraint against a job id. -/
def idMatch : IdFilter → Nat → Bool
  | .any, _ => true
  | .lt b, jid => decide (jid < b)
  | .gte a, jid => decide (a ≤ jid)
  | .eq v, jid => decide (jid = v)
  | .isIn vs, jid => decide (jid ∈ vs)

/-- Evaluation of the `job.name` constraint: no names means no
constraint; otherwise the job's optional name must be one of the given
names (a job with no name matches nothing, as its BSON field is
absent). -/
def nameMatch (names : List String) (j : SubmittedJob) : Bool :=
  match names with
  | [] => true
  | _ =>
    match j.job.name with
    | some n => decide (n ∈ names)
    | none => false

/-- Evaluation of the `status` constraint. -/
def statusMatch (statuses : List String) (j : SubmittedJob) : Bool :=
  match statuses with
  | [] => true
  | _ => decide (j.status ∈ statuses)

/-- One job against the whole Mongo query document: the account
constraint is always present (`q := bson.M{"account": query.AccountName}`),
followed by the `_id`, `job.name` and `status` constraints. -/
def jobMatches (q : JobQuery) (idf : IdFilter) (j : SubmittedJob) : Bool :=
  decide (j.account = q.accountName) && idMatch idf j.jid
    && nameMatch q.names j && statusMatch q.statuses j

/-- `Find(q).Limit(query.Limit).All`: all matching documents, truncated
to `limit` entries; mgo's `Limit(0)` means no limit. -/
def runQuery (db : List SubmittedJob) (q : JobQuery) (idf : IdFilter) :
    List SubmittedJob :=
  let r := db.filter (jobMatches q idf)
  if q.limit = 0 then r else r.take q.limit

/-- storage.go `MongoStorage.ListJobs`, with the database modelled as a
list of stored jobs.  The three-way `switch len(query.JIDs)` is
translated branch by branch, including the early empty returns and the
`q["_id"]` map writes (in the zero-JID branch a non-zero `after` write
lands on the same map key as a previous `before` write). -/
def listJobs (db : List SubmittedJob) (q : JobQuery) : List SubmittedJob :=
  match q.jids with
  | [] =>
    let idf := IdFilter.any
    let idf := if q.before ≠ 0 then IdFilter.lt q.before else idf
    let idf := if q.after ≠ 0 then IdFilter.gte q.after else idf
    runQuery db q idf
  | [only] =>
    if q.before ≠ 0 ∧ q.before ≤ only then []
    else if q.after ≠ 0 ∧ only < q.after then []
    else runQuery db q (IdFilter.eq only)
  | jids =>
    if q.before ≠ 0 ∨ q.after ≠ 0 then
      let filtered := jids.filter fun jid =>
        (decide (q.before = 0) || decide (jid < q.before))
          && (decide (q.after = 0) || decide (q.after ≤ jid))
      if filtered.isEmpty then [] else runQuery db q (IdFilter.isIn filtered)
    else runQuery db q (IdFilter.isIn jids)

/-! ## Kill handler lookup (handlers.go `JobKillHandler`)

The handler parses `jid` and `sudo` from the form body, builds
`JobQuery{JIDs: []uint64{jid}}`, and sets `AccountName` only when `sudo`
is false; all other fields keep their Go zero values. -/

/-- The job lookup query built by `JobKillHandler` for an authenticated
account, a parsed `sudo` flag and a parsed jid. -/
def jobKillQuery (account : Account) (sudoFlag : Bool) (jid : Nat) : JobQuery :=
  { accountName := if sudoFlag then "" else account.name
    jids := [jid]
    names := []
    statuses := []
    limit := 0
    before := 0
    after := 0 }

/-! ## Claiming (storage.go `MongoStorage.ClaimJob`)

`ClaimJob` runs a Mongo find-and-modify: `Find({status: "queued"})`,
`Sort("created_at")`, `Apply({$set: {status: "processing"}},
ReturnNew: true)`.  Find-and-modify updates the first document in sort
order and is atomic; `mgo.ErrNotFound` is translated to a nil job with
no error.  The embedding scans the stored list for the first job
attaining the minimal `created_at` among `queued` jobs. -/

/-- One step of the scan for the oldest queued job: combine the head
job with the best candidate of the tail (index relative to the tail). -/
def oldestQueuedStep (j : SubmittedJob) :
    Option (Nat × SubmittedJob) → Option (Nat × SubmittedJob)
  | none => if j.status = StatusQueued then some (0, j) else none
  | some (i, m) =>
    if j.status = StatusQueued ∧ j.createdAt ≤ m.createdAt then some (0, j)
    else some (i + 1, m)

/-- The index and value of the first stored job attaining the minimal
`created_at` among jobs with status `queued`; `none` when no job is
queued. -/
def oldestQueued : List SubmittedJob → Option (Nat × SubmittedJob)
  | [] => none
  | j :: rest => oldestQueuedStep j (oldestQueued rest)

/-- storage.go `MongoStorage.ClaimJob`: atomically select the oldest
queued job, set its status to `processing` in the same operation, and
return the updated document; `(none, db)` models `return nil, nil` on
`mgo.ErrNotFound`. -/
def claimJob (db : List SubmittedJob) :
    Option SubmittedJob × List SubmittedJob :=
  match oldestQueued db with
  | none => (none, db)
  | some (i, m) =>
    let m' := { m with status := StatusProcessing }
    (some m', db.set i m')

/-! ## JSON wire codec of SubmittedJob (job.go struct tags, `StoredTime`)

`StoredTime` is marshalled with the Go layout `2006-01-02 15:04:05.000`
(UTC), which carries exactly millisecond resolution, and unmarshalled
with the same layout; composing the two truncates a nanosecond count
down to the containing millisecond.  The fields `account`,
`container_id` and `kill_requested` carry the struct tag `json:"-"` and
are skipped by both the encoder and the decoder, so a decoded job holds
their Go zero values.  Every other field uses a standard codec that
round-trips. -/

/-- Truncation of a nanosecond timestamp to its containing millisecond,
the effect of Go's `Format` followed by `Parse` with the layout
`2006-01-02 15:04:05.000` (for timestamps whose year the layout can
represent). -/
def truncMs (n : Int) : Int := n / 1000000 * 1000000

/-- Modelled from the `json:` struct tags of `SubmittedJob` and the
`StoredTime` marshaller: the composition of JSON encoding and decoding.
Fields tagged `json:"-"` come back as zero values; `StoredTime` fields
come back truncated to the millisecond; all remaining fields round-trip
unchanged. -/
def jsonRoundTrip (j : SubmittedJob) : SubmittedJob :=
  { j with
    account := ""
    containerID := ""
    killRequested := false
    createdAt := truncMs j.createdAt
    startedAt := truncMs j.startedAt
    finishedAt := truncMs j.finishedAt }

/-! ## Executor (runner.go `Execute`)

The executor drives one claimed job through the container lifecycle.
Its calls into Docker and Mongo are modelled by an `ExecEnv` of call
results, and the calls it makes are recorded in an event trace.  The
persisted copy of the job (the last successful `UpdateJob` payload) is
tracked alongside the in-memory job. -/

/-- One entry of a tar archive stream as consumed by the executor's
decode loop: a successfully read entry body, a `tr.Next()` error, or an
`io.Copy` error after writing some partial bytes. -/
inductive TarItem
  | entry (body : List Nat)
  | nextErr
  | copyErr (partialBytes : List Nat)
deriving DecidableEq, Repr

/-- The executor's tar decode loop: iterate the entries, appending each
entry body to the content buffer; a read or copy error stops the loop
and is flagged.  Returns the accumulated content and the error flag. -/
def decodeTar : List TarItem → List Nat × Bool
  | [] => ([], false)
  | .entry b :: rest =>
    let (c, bad) := decodeTar rest
    (b ++ c, bad)
  | .nextErr :: _ => ([], true)
  | .copyErr p :: _ => (p, true)

/-- Observable calls made by `Execute`, in order. -/
inductive Ev
  | create
  | update
  | attach
  | start
  | wait
  | killCheck
  | copyOut (path : String)
  | remove
  | usage
deriving DecidableEq, Repr

/-- Results of the external calls `Execute` can make, plus the clock
readings it takes and the bytes its output collectors receive.  `Unit`
stands in for Go error values whose content the executor only logs. -/
structure ExecEnv where
  createRes : Except Unit String
  startRes : Except Unit Unit
  waitRes : Except Unit Int
  killRes : Except Unit Bool
  copyRes : Except Unit (List TarItem)
  usageRes : Except Unit Unit
  stdoutData : String
  stderrData : String
  updateOk : Nat → Bool
  startedAt : Int
  overheadAt : Int
  finishedAt : Int

/-- The executor's running state: the in-memory job, the last
successfully persisted copy, the number of `UpdateJob` calls made so
far, and the call trace. -/
structure ExecState where
  job : SubmittedJob
  stored : SubmittedJob
  updates : Nat
  trace : List Ev
deriving Repr

/-- The executor's `updateJob` helper: one `UpdateJob` call; on success
the in-memory job becomes the persisted copy.  Returns the new state
and whether the call succeeded. -/
def pushUpdate (env : ExecEnv) (s : ExecState) : ExecState × Bool :=
  let ok := env.updateOk s.updates
  ({ job := s.job
     stored := if ok then s.job else s.stored
     updates := s.updates + 1
     trace := s.trace ++ [Ev.update] }, ok)

/-- Result extraction (runner.go `Execute`, after the status decision):
`stdout` sources read the accumulated stdout bytes; `file:` sources copy
the path out of the container and decode the tar archive, any error
demoting the status to `error`; other sources extract nothing. -/
def extractResult (env : ExecEnv) (s : ExecState) : ExecState :=
  if s.job.job.resultSource = "stdout" then
    { s with job := { s.job with result := strBytes s.job.stdout } }
  else if s.job.job.resultSource.startsWith "file:" then
    let path := s.job.job.resultSource.drop 5
    let s := { s with trace := s.trace ++ [Ev.copyOut path] }
    match env.copyRes with
    | .error _ => { s with job := { s.job with status := StatusError } }
    | .ok arch =>
      let dec := decodeTar arch
      let j := { s.job with result := dec.1 }
      let j := if dec.2 then { j with status := StatusError } else j
      { s with job := j }
  else s

/-- Cleanup and finalization (runner.go `Execute`, tail): remove the
container (result only logged), update account usage (an error returns
without the final persist), then persist the final job state. -/
def cleanup (env : ExecEnv) (s : ExecState) : ExecState :=
  let s := { s with trace := s.trace ++ [Ev.remove, Ev.usage] }
  match env.usageRes with
  | .error _ => s
  | .ok _ => (pushUpdate env s).1

/-- runner.go `Execute`, translated statement by statement.  The attach
session runs on its own goroutine in Go; here the output collectors'
appends and write-then-persist updates are placed between the start and
the wait, which is when container output can flow.  The pre-start kill
check reads the in-memory `killRequested` carried by the claimed job;
the post-wait kill check calls `JobKillRequested` (`env.killRes`). -/
def execute (env : ExecEnv) (job0 : SubmittedJob) : ExecState :=
  let j1 := { job0 with
              startedAt := env.startedAt
              queueDelay := env.startedAt - job0.createdAt }
  let s0 : ExecState := { job := j1, stored := job0, updates := 0, trace := [Ev.create] }
  match env.createRes with
  | .error _ =>
    (pushUpdate env { s0 with job := { j1 with status := StatusError } }).1
  | .ok cid =>
    let s := { s0 with job := { j1 with containerID := cid } }
    let r := pushUpdate env s
    if !r.2 then r.1
    else
      let s := r.1
      if s.job.killRequested then
        cleanup env { s with job := { s.job with status := StatusKilled } }
      else
        let s := { s with trace := s.trace ++ [Ev.attach, Ev.start] }
        match env.startRes with
        | .error _ =>
          (pushUpdate env { s with job := { s.job with status := StatusError } }).1
        | .ok _ =>
          let s := { s with job := { s.job with
                                     overheadDelay := env.overheadAt - env.startedAt } }
          let s := (pushUpdate env s).1
          let s :=
            if env.stdoutData = "" then s
            else
              let s := { s with job := { s.job with
                                         stdout := s.job.stdout ++ env.stdoutData } }
              (pushUpdate env s).1
          let s :=
            if env.stderrData = "" then s
            else
              let s := { s with job := { s.job with
                                         stderr := s.job.stderr ++ env.stderrData } }
              (pushUpdate env s).1
          let s := { s with trace := s.trace ++ [Ev.wait] }
          match env.waitRes with
          | .error _ =>
            (pushUpdate env { s with job := { s.job with status := StatusError } }).1
          | .ok code =>
            let s := { s with job := { s.job with
                                       finishedAt := env.finishedAt
                                       runtime := env.finishedAt - env.overheadAt } }
            if code = 0 then
              cleanup env (extractResult env { s with job := { s.job with status := StatusDone } })
            else
              let s := { s with trace := s.trace ++ [Ev.killCheck] }
              match env.killRes with
              | .error _ => s
              | .ok killed =>
                let st :=
                  if killed then StatusKilled else StatusError
                cleanup env (extractResult env { s with job := { s.job with status := st } })

/-! ## Concrete inputs used by witnesses and counterexamples -/

/-- A minimal valid job submission. -/
def jobZero : Job :=
  { command := "echo hi"
    name := none
    core := ""
    multicore := 0
    restartable := false
    tags := []
    layers := []
    volumes := []
    environment := []
    resultSource := "stdout"
    resultType := "binary"
    maxRuntime := 0
    stdin := []
    profile := none
    dependsOn := none }

/-- Zeroed resource metrics. -/
def collectedZero : Collected :=
  { cpuTimeUser := 0, cpuTimeSystem := 0, memoryFailCount := 0, memoryMaxUsage := 0 }

/-- A queued stored job owned by the `admin` account. -/
def sjQueued : SubmittedJob :=
  { job := jobZero
    createdAt := 100
    startedAt := 0
    finishedAt := 0
    status := StatusQueued
    result := []
    returnCode := ""
    runtime := 0
    queueDelay := 0
    overheadDelay := 0
    stderr := ""
    stdout := ""
    collected := collectedZero
    jid := 1
    account := "admin"
    containerID := ""
    killRequested := false }

/-- A claimed (processing) job, as handed to the executor. -/
def sjClaimed : SubmittedJob := { sjQueued with status := StatusProcessing }

/-- A non-admin account. -/
def acctBob : Account :=
  { name := "bob", admin := false, totalRuntime := 0, totalJobs := 0 }

/-- A stored job whose `account` field is the empty string. -/
def sjEmptyAcct : SubmittedJob := { sjQueued with account := "" }

/-- A list query with `before` and `after` both set and no explicit
jids. -/
def beforeAfterQuery : JobQuery :=
  { accountName := "admin", jids := [], names := [], statuses := []
    limit := 0, before := 3, after := 1 }

/-- A stored job with jid 5, outside `beforeAfterQuery`'s `before`
bound. -/
def sjJid5 : SubmittedJob := { sjQueued with jid := 5 }

/-- A claimed job on which a kill was requested between claim and
container creation. -/
def sjKillReq : SubmittedJob := { sjClaimed with killRequested := true }

/-- An environment in which the container exits non-zero and the
`JobKillRequested` read fails. -/
def envKillCheckErr : ExecEnv :=
  { createRes := .ok "c1"
    startRes := .ok ()
    waitRes := .ok 7
    killRes := .error ()
    copyRes := .ok []
    usageRes := .ok ()
    stdoutData := "hi"
    stderrData := ""
    updateOk := fun _ => true
    startedAt := 110
    overheadAt := 112
    finishedAt := 120 }

/-- An execution environment in which every external call succeeds. -/
def envOk : ExecEnv :=
  { createRes := .ok "c1"
    startRes := .ok ()
    waitRes := .ok 0
    killRes := .ok false
    copyRes := .ok []
    usageRes := .ok ()
    stdoutData := "hi"
    stderrData := ""
    updateOk := fun _ => true
    startedAt := 110
    overheadAt := 112
    finishedAt := 120 }

/-! # Theorems -/

/-! ## C6: validator error codes -/

/-- C6: `Validate` rejects an empty command with `JCMD`; rejects a
non-empty-command job whose `result_source` is neither `stdout` nor a
string beginning with `file:` with `JRSRC`; rejects a job passing those
checks whose `result_type` is neither `binary` nor `pickle` with
`JRTYPE`; and accepts exactly the jobs satisfying all three
conditions. -/
theorem validate_error_codes (j : Job) :
    (j.command = "" → j.validate = some CodeMissingCommand) ∧
    (j.command ≠ "" → ¬resultSourceOk j → j.validate = some CodeInvalidResultSource) ∧
    (j.command ≠ "" → resultSourceOk j → ¬resultTypeOk j →
      j.validate = some CodeInvalidResultType) ∧
    (j.validate = none ↔ j.command ≠ "" ∧ resultSourceOk j ∧ resultTypeOk j) := by
  refine ⟨fun h1 => by simp [Job.validate, h1],
          fun h1 h2 => by simp [Job.validate, h1, h2],
          fun h1 h2 h3 => by simp [Job.validate, h1, h2, h3], ?_⟩
  unfold Job.validate
  split_ifs with h1 h2 h3 <;>
    simp_all [CodeMissingCommand, CodeInvalidResultSource, CodeInvalidResultType]

/-- Witness for C6: the minimal valid job is accepted, and blanking its
command yields `JCMD`. -/
theorem validate_error_codes_witness :
    jobZero.validate = none ∧
    ({ jobZero with command := "" } : Job).validate = some CodeMissingCommand := by
  constructor
  · exact (validate_error_codes jobZero).2.2.2.mpr (by decide)
  · exact (validate_error_codes { jobZero with command := "" }).1 rfl

/-! ## C10: authentication admits only the configured admin -/

/-- C10: `Authenticate` succeeds exactly on the configured non-empty
admin name and key, and then returns an account with `Admin = true`;
any other supplied credential pair is rejected with `AFAIL`, and missing
credentials with `ANONE`.  The definition of `authenticate` takes no
auth-service argument because the source function never consults the
pluggable auth service, so no non-admin account can authenticate. -/
theorem authenticate_admin_only (s : AuthSettings) (n k : String) :
    (∀ a, authenticate s (some (n, k)) = .ok a →
      s.adminName ≠ "" ∧ s.adminKey ≠ "" ∧ n = s.adminName ∧ k = s.adminKey ∧
      a = { name := n, admin := true, totalRuntime := 0, totalJobs := 0 }) ∧
    (¬(s.adminName ≠ "" ∧ s.adminKey ≠ "" ∧ n = s.adminName ∧ k = s.adminKey) →
      authenticate s (some (n, k)) = .error CodeCredentialsIncorrect) ∧
    authenticate s none = .error CodeCredentialsMissing := by
  by_cases h1 : s.adminName = ""
  · refine ⟨?_, ?_, rfl⟩
    · intro a h
      simp [authenticate, h1] at h
    · intro _
      simp [authenticate, h1]
  · by_cases h2 : s.adminKey = ""
    · refine ⟨?_, ?_, rfl⟩
      · intro a h
        simp [authenticate, h1, h2] at h
      · intro _
        simp [authenticate, h1, h2]
    · by_cases h3 : n = s.adminName ∧ k = s.adminKey
      · refine ⟨?_, ?_, rfl⟩
        · intro a h
          simp [authenticate, h1, h2, h3.1, h3.2] at h
          exact ⟨h1, h2, h3.1, h3.2, by rw [← h, h3.1]⟩
        · intro hn
          exact absurd ⟨h1, h2, h3.1, h3.2⟩ hn
      · refine ⟨?_, ?_, rfl⟩
        · intro a h
          simp [authenticate, h1, h2, h3] at h
        · intro _
          simp [authenticate, h1, h2, h3]

/-- Witness for C10: correct admin credentials are accepted with an
admin account; a wrong key is rejected with `AFAIL`. -/
theorem authenticate_admin_only_witness :
    authenticate { adminName := "root", adminKey := "s3cret" } (some ("root", "nope"))
      = .error CodeCredentialsIncorrect ∧
    ({ name := "root", admin := true, totalRuntime := 0, totalJobs := 0 } : Account).admin
      = true := by
  constructor
  · exact (authenticate_admin_only { adminName := "root", adminKey := "s3cret" }
      "root" "nope").2.1 (by decide)
  · rfl

/-! ## C3: the sudo flag and the admin account -/

/-- Counterexample to C3: `JobKillHandler` never consults the `Admin`
flag of the authenticated account.  For the non-admin account `bob`
with `sudo=true`, the lookup query's account constraint is dropped
(empty, not `bob`), and the query is identical to the one built for an
admin account of the same name. -/
theorem jobKillHandler_sudo_ignores_admin_flag :
    (jobKillQuery acctBob true 1).accountName = "" ∧
    (jobKillQuery acctBob true 1).accountName ≠ acctBob.name ∧
    jobKillQuery acctBob true 1 = jobKillQuery { acctBob with admin := true } true 1 := by
  decide

/-- C3 (amended): the handler honors `sudo=true` for every authenticated
account, admin or not, by leaving the query's account name empty; with
`sudo=false` the account name is the caller's.  Because
`MongoStorage.ListJobs` always constrains on the `account` field, a
`sudo=true` lookup matches only jobs whose stored account is the empty
string. -/
theorem jobKillQuery_sudo_for_all_accounts (account : Account) (jid : Nat) :
    (jobKillQuery account true jid).accountName = "" ∧
    (jobKillQuery account false jid).accountName = account.name ∧
    (∀ j db, j ∈ listJobs db (jobKillQuery account true jid) →
      j.account = "" ∧ j.jid = jid) := by
  refine ⟨rfl, rfl, ?_⟩
  intro j db hj
  simp only [listJobs, jobKillQuery, runQuery] at hj
  norm_num at hj
  have hm := hj.2
  simp only [jobMatches, idMatch, nameMatch, statusMatch, Bool.and_eq_true,
    decide_eq_true_eq] at hm
  exact ⟨hm.1.1.1, hm.1.1.2⟩

/-- Witness for C3 (amended): applied to `bob` and a store holding a job
with an empty account field. -/
theorem jobKillQuery_sudo_for_all_accounts_witness :
    sjEmptyAcct.account = "" ∧ sjEmptyAcct.jid = 1 := by
  exact (jobKillQuery_sudo_for_all_accounts acctBob 1).2.2
    sjEmptyAcct [sjEmptyAcct] (by decide)

/-! ## C8: before/after bounds in ListJobs -/

/-- C8: evaluation at the failing input.  With no explicit jids and both
bounds supplied (`before=3`, `after=1`), `ListJobs` still returns the
job with jid 5: the `$lt` clause written for `before` is overwritten by
the `$gte` clause written for `after` on the same `_id` map key, so the
exclusive upper bound is not applied. -/
theorem listJobs_before_dropped_when_after_present :
    beforeAfterQuery.before = 3 ∧ sjJid5.jid = 5 ∧
    listJobs [sjJid5] beforeAfterQuery = [sjJid5] := by
  decide

/-! ## C9: JSON round-trip of SubmittedJob -/

/-- Counterexample to C9: JSON encode/decode is not the identity on
every `SubmittedJob`.  The `account` field carries the struct tag
`json:"-"`, so it is dropped by the encoder and comes back as the empty
string; a job owned by `admin` therefore does not round-trip (its
`created_at` of 100 ns is likewise truncated to the millisecond). -/
theorem jsonRoundTrip_not_identity : jsonRoundTrip sjQueued ≠ sjQueued := by
  decide

/-- C9 (amended): JSON encode/decode preserves every JSON-visible field
of a `SubmittedJob` — the embedded job, timestamps up to the
millisecond resolution of the `2006-01-02 15:04:05.000` wire format,
status, result, return code, durations, streams, metrics and jid — but
resets `account`, `container_id` and `kill_requested` (tagged
`json:"-"`) to zero values.  It is the identity exactly when those
three fields are already zero and all three timestamps are
millisecond-aligned. -/
theorem jsonRoundTrip_exact (j : SubmittedJob) :
    (jsonRoundTrip j).job = j.job ∧
    (jsonRoundTrip j).status = j.status ∧
    (jsonRoundTrip j).result = j.result ∧
    (jsonRoundTrip j).returnCode = j.returnCode ∧
    (jsonRoundTrip j).runtime = j.runtime ∧
    (jsonRoundTrip j).queueDelay = j.queueDelay ∧
    (jsonRoundTrip j).overheadDelay = j.overheadDelay ∧
    (jsonRoundTrip j).stderr = j.stderr ∧
    (jsonRoundTrip j).stdout = j.stdout ∧
    (jsonRoundTrip j).collected = j.collected ∧
    (jsonRoundTrip j).jid = j.jid ∧
    (jsonRoundTrip j).account = "" ∧
    (jsonRoundTrip j).containerID = "" ∧
    (jsonRoundTrip j).killRequested = false ∧
    (jsonRoundTrip j = j ↔
      j.account = "" ∧ j.containerID = "" ∧ j.killRequested = false ∧
      truncMs j.createdAt = j.createdAt ∧ truncMs j.startedAt = j.startedAt ∧
      truncMs j.finishedAt = j.finishedAt) ∧
    (∀ n : Int, truncMs n = n ↔ (1000000 : Int) ∣ n) := by
  refine ⟨rfl, rfl, rfl, rfl, rfl, rfl, rfl, rfl, rfl, rfl, rfl, rfl, rfl, rfl, ?_, ?_⟩
  · constructor
    · intro h
      refine ⟨(congrArg SubmittedJob.account h).symm ▸ rfl, ?_, ?_, ?_, ?_, ?_⟩
      · exact (congrArg SubmittedJob.containerID h).symm ▸ rfl
      · exact (congrArg SubmittedJob.killRequested h).symm ▸ rfl
      · exact congrArg SubmittedJob.createdAt h
      · exact congrArg SubmittedJob.startedAt h
      · exact congrArg SubmittedJob.finishedAt h
    · rintro ⟨h1, h2, h3, h4, h5, h6⟩
      cases j
      simp_all [jsonRoundTrip]
  · intro n
    unfold truncMs
    omega

/-! ## C1: ClaimJob -/

/-- A store with no queued job yields no claim candidate. -/
theorem oldestQueued_eq_none (db : List SubmittedJob)
    (h : ∀ x ∈ db, x.status ≠ StatusQueued) : oldestQueued db = none := by
  induction db with
  | nil => rfl
  | cons j rest ih =>
    have hj := h j (List.mem_cons_self j rest)
    have hrest : oldestQueued rest = none :=
      ih fun x hx => h x (List.mem_cons_of_mem j hx)
    simp [oldestQueued, oldestQueuedStep, hrest, hj]

/-- Conversely, no claim candidate means no job in the store is
queued. -/
theorem oldestQueued_none_sound (db : List SubmittedJob)
    (h : oldestQueued db = none) : ∀ x ∈ db, x.status ≠ StatusQueued := by
  induction db with
  | nil => simp
  | cons j rest ih =>
    rw [oldestQueued] at h
    cases hr : oldestQueued rest with
    | none =>
      rw [hr] at h
      simp only [oldestQueuedStep] at h
      by_cases hq : j.status = StatusQueued
      · rw [if_pos hq] at h; cases h
      · intro x hx
        rcases List.mem_cons.mp hx with rfl | hx'
        · exact hq
        · exact ih hr x hx'
    | some p =>
      obtain ⟨i', m'⟩ := p
      rw [hr] at h
      simp only [oldestQueuedStep] at h
      by_cases hc : j.status = StatusQueued ∧ j.createdAt ≤ m'.createdAt
      · rw [if_pos hc] at h; cases h
      · rw [if_neg hc] at h; cases h

/-- The claim candidate is a stored job and its status is `queued`. -/
theorem oldestQueued_get (db : List SubmittedJob) (i : Nat) (m : SubmittedJob)
    (h : oldestQueued db = some (i, m)) :
    db.get? i = some m ∧ m.status = StatusQueued := by
  induction db generalizing i m with
  | nil => simp [oldestQueued] at h
  | cons j rest ih =>
    rw [oldestQueued] at h
    cases hr : oldestQueued rest with
    | none =>
      rw [hr] at h
      simp only [oldestQueuedStep] at h
      by_cases hq : j.status = StatusQueued
      · rw [if_pos hq] at h
        injection h with h'
        injection h' with h1 h2
        subst h1; subst h2
        exact ⟨rfl, hq⟩
      · rw [if_neg hq] at h; cases h
    | some p =>
      obtain ⟨i', m'⟩ := p
      rw [hr] at h
      simp only [oldestQueuedStep] at h
      by_cases hc : j.status = StatusQueued ∧ j.createdAt ≤ m'.createdAt
      · rw [if_pos hc] at h
        injection h with h'
        injection h' with h1 h2
        subst h1; subst h2
        exact ⟨rfl, hc.1⟩
      · rw [if_neg hc] at h
        injection h with h'
        injection h' with h1 h2
        subst h1; subst h2
        exact ih i' m' hr

/-- The claim candidate's `created_at` is minimal among queued jobs. -/
theorem oldestQueued_min (db : List SubmittedJob) (i : Nat) (m : SubmittedJob)
    (h : oldestQueued db = some (i, m)) :
    ∀ x ∈ db, x.status = StatusQueued → m.createdAt ≤ x.createdAt := by
  induction db generalizing i m with
  | nil => simp [oldestQueued] at h
  | cons j rest ih =>
    rw [oldestQueued] at h
    intro x hx hxq
    rcases List.mem_cons.mp hx with rfl | hx'
    · cases hr : oldestQueued rest with
      | none =>
        rw [hr] at h
        simp only [oldestQueuedStep] at h
        rw [if_pos hxq] at h
        injection h with h'
        injection h' with h1 h2
        subst h2
        exact le_refl _
      | some p =>
        obtain ⟨i', m'⟩ := p
        rw [hr] at h
        simp only [oldestQueuedStep] at h
        by_cases hc : x.status = StatusQueued ∧ x.createdAt ≤ m'.createdAt
        · rw [if_pos hc] at h
          injection h with h'
          injection h' with h1 h2
          subst h2
          exact le_refl _
        · rw [if_neg hc] at h
          injection h with h'
          injection h' with h1 h2
          subst h2
          have : ¬x.createdAt ≤ m'.createdAt := fun hle => hc ⟨hxq, hle⟩
          exact le_of_not_le this
    · cases hr : oldestQueued rest with
      | none =>
        exact absurd hxq (oldestQueued_none_sound rest hr x hx')
      | some p =>
        obtain ⟨i', m'⟩ := p
        rw [hr] at h
        simp only [oldestQueuedStep] at h
        have hmin := ih i' m' hr x hx' hxq
        by_cases hc : j.status = StatusQueued ∧ j.createdAt ≤ m'.createdAt
        · rw [if_pos hc] at h
          injection h with h'
          injection h' with h1 h2
          subst h2
          exact le_trans hc.2 hmin
        · rw [if_neg hc] at h
          injection h with h'
          injection h' with h1 h2
          subst h2
          exact hmin

/-- C1: `ClaimJob` selects a stored job whose status is `queued` and
whose `created_at` is minimal among all queued jobs, sets that job's
status to `processing` in the same operation (the returned job and the
updated store come from one atomic step), and returns it; when no
queued job exists it returns nil with no error and leaves the store
unchanged. -/
theorem claimJob_oldest_queued (db : List SubmittedJob) :
    (∀ j db', claimJob db = (some j, db') →
      j.status = StatusProcessing ∧
      ∃ i m, db.get? i = some m ∧ m.status = StatusQueued ∧
        j = { m with status := StatusProcessing } ∧
        db' = db.set i { m with status := StatusProcessing } ∧
        ∀ x ∈ db, x.status = StatusQueued → m.createdAt ≤ x.createdAt) ∧
    ((∀ x ∈ db, x.status ≠ StatusQueued) → claimJob db = (none, db)) := by
  constructor
  · intro j db' h
    unfold claimJob at h
    cases hr : oldestQueued db with
    | none => rw [hr] at h; simp at h
    | some p =>
      obtain ⟨i, m⟩ := p
      rw [hr] at h
      simp only [Prod.mk.injEq, Option.some.injEq] at h
      obtain ⟨hj, hdb⟩ := h
      subst hj; subst hdb
      obtain ⟨hget, hq⟩ := oldestQueued_get db i m hr
      exact ⟨rfl, i, m, hget, hq, rfl, rfl, oldestQueued_min db i m hr⟩
  · intro h
    unfold claimJob
    rw [oldestQueued_eq_none db h]

/-- Witness for C1: claiming from a one-job queue returns that job with
status `processing`. -/
theorem claimJob_oldest_queued_witness :
    sjClaimed.status = StatusProcessing ∧ sjQueued.status = StatusQueued := by
  have h := (claimJob_oldest_queued [sjQueued]).1 sjClaimed [sjClaimed] (by decide)
  exact ⟨h.1, by decide⟩

/-! ## Executor lemmas -/

/-- Cleanup never changes the in-memory job. -/
theorem cleanup_job (env : ExecEnv) (s : ExecState) :
    (cleanup env s).job = s.job := by
  cases hg : env.usageRes <;> simp [cleanup, pushUpdate, hg]

/-- Cleanup appends the remove and usage events (and, on usage success,
the final update) to the trace. -/
theorem cleanup_trace (env : ExecEnv) (s : ExecState) :
    (cleanup env s).trace = s.trace ++ [Ev.remove, Ev.usage] ∨
    (cleanup env s).trace = s.trace ++ [Ev.remove, Ev.usage] ++ [Ev.update] := by
  cases hg : env.usageRes <;> simp [cleanup, pushUpdate, hg]

/-- When the account-usage update succeeds and every job update
succeeds, cleanup persists the in-memory job. -/
theorem cleanup_stored (env : ExecEnv) (s : ExecState)
    (hu : env.updateOk = fun _ => true) (hg : env.usageRes = .ok ()) :
    (cleanup env s).stored = s.job := by
  simp [cleanup, pushUpdate, hu, hg]

/-- Result extraction never changes the trace's existing events, only
appends, and never changes stdout. -/
theorem extractResult_stdout (env : ExecEnv) (s : ExecState) :
    (extractResult env s).job.stdout = s.job.stdout := by
  unfold extractResult
  split_ifs <;> try rfl
  cases hcp : env.copyRes <;> simp [hcp]
  split_ifs <;> rfl

/-! ## C2: exit-code status decision -/

/-- C2: when the container's `Wait` completes with an exit code (the
claimed job was persisted after creation, was not pre-start-killed, and
started successfully), the executor sets status `done` on exit code 0;
on a non-zero exit code it consults the stored `kill_requested` flag
via `JobKillRequested` and sets `killed` when the flag is true, `error`
otherwise.  The `result_source = "stdout"` hypothesis keeps the
subsequent extraction step from demoting the decided status. -/
theorem execute_exit_status_decision (env : ExecEnv) (job0 : SubmittedJob)
    (cid : String) (code : Int)
    (hc : env.createRes = .ok cid)
    (hk0 : job0.killRequested = false)
    (hu : env.updateOk = fun _ => true)
    (hs : env.startRes = .ok ())
    (hw : env.waitRes = .ok code)
    (hsrc : job0.job.resultSource = "stdout") :
    (code = 0 → (execute env job0).job.status = StatusDone) ∧
    (∀ b, env.killRes = .ok b → code ≠ 0 →
      (execute env job0).job.status = (if b then StatusKilled else StatusError)) := by
  constructor
  · intro h0
    by_cases hod : env.stdoutData = "" <;> by_cases hed : env.stderrData = "" <;>
      simp [execute, pushUpdate, extractResult, cleanup_job, hc, hk0, hu, hs, hw, hsrc,
        h0, hod, hed]
  · intro b hkr hne
    by_cases hod : env.stdoutData = "" <;> by_cases hed : env.stderrData = "" <;>
      cases b <;>
      simp [execute, pushUpdate, extractResult, cleanup_job, hc, hk0, hu, hs, hw, hsrc,
        hkr, hne, hod, hed]

/-- Witness for C2: a zero exit in the all-success environment ends with
status `done`. -/
theorem execute_exit_status_decision_witness :
    (execute envOk sjClaimed).job.status = StatusDone :=
  (execute_exit_status_decision envOk sjClaimed "c1" 0 rfl rfl rfl rfl rfl rfl).1 rfl

/-! ## C4: pre-start kill check ordering -/

/-- C4: after a successful container creation the executor persists the
job (now carrying the container id) before inspecting `kill_requested`;
when the flag is already true it sets status `killed` and proceeds
directly to container removal: the trace is exactly create, the
container-id persist, remove, account usage and the final persist, with
no start, attach or wait, and both the in-memory and the persisted job
end killed with the container id recorded. -/
theorem execute_prestart_kill (env : ExecEnv) (job0 : SubmittedJob) (cid : String)
    (hc : env.createRes = .ok cid)
    (hk0 : job0.killRequested = true)
    (hu : env.updateOk = fun _ => true)
    (hg : env.usageRes = .ok ()) :
    (execute env job0).trace = [Ev.create, Ev.update, Ev.remove, Ev.usage, Ev.update] ∧
    (execute env job0).job.status = StatusKilled ∧
    (execute env job0).stored.status = StatusKilled ∧
    (execute env job0).stored.containerID = cid ∧
    Ev.start ∉ (execute env job0).trace ∧
    Ev.attach ∉ (execute env job0).trace ∧
    Ev.wait ∉ (execute env job0).trace := by
  simp [execute, pushUpdate, cleanup, hc, hk0, hu, hg]

/-- Witness for C4: the kill-requested claimed job in the all-success
environment ends killed. -/
theorem execute_prestart_kill_witness :
    (execute envOk sjKillReq).job.status = StatusKilled :=
  (execute_prestart_kill envOk sjKillReq "c1" rfl rfl rfl rfl).2.1

/-! ## C5: terminal status on return -/

/-- Counterexample to C5: not every execution path persists a terminal
status.  With a non-zero exit and a failing `JobKillRequested` read,
`Execute` returns immediately; the last persisted copy of the job still
has status `processing`. -/
theorem execute_killcheck_error_leaves_processing :
    (execute envKillCheckErr sjClaimed).stored.status = StatusProcessing ∧
    StatusProcessing ≠ StatusDone ∧ StatusProcessing ≠ StatusError ∧
    StatusProcessing ≠ StatusKilled := by
  decide

/-- C5 (amended): provided the storage operations succeed (every
`UpdateJob` call, the `JobKillRequested` read and the account-usage
update), `Execute` always leaves the job persisted in a terminal
status — `done`, `error` or `killed` — regardless of how the container
operations (create, start, wait, copy-out, tar decoding) fare. -/
theorem execute_terminal_when_storage_ok (env : ExecEnv) (job0 : SubmittedJob)
    (hu : env.updateOk = fun _ => true)
    (hg : env.usageRes = .ok ())
    (hk : ∃ b, env.killRes = .ok b) :
    (execute env job0).stored.status = StatusDone ∨
    (execute env job0).stored.status = StatusError ∨
    (execute env job0).stored.status = StatusKilled := by
  obtain ⟨b, hk⟩ := hk
  cases hcr : env.createRes with
  | error e =>
    simp [execute, pushUpdate, cleanup, hcr, hu, hg]
  | ok cid =>
    by_cases hk0 : job0.killRequested
    · simp [execute, pushUpdate, cleanup, hcr, hk0, hu, hg]
    · rw [Bool.not_eq_true] at hk0
      cases hsr : env.startRes with
      | error e =>
        by_cases hod : env.stdoutData = "" <;> by_cases hed : env.stderrData = "" <;>
          simp [execute, pushUpdate, cleanup, hcr, hk0, hu, hg, hsr, hod, hed]
      | ok u =>
        cases hwr : env.waitRes with
        | error e =>
          by_cases hod : env.stdoutData = "" <;> by_cases hed : env.stderrData = "" <;>
            simp [execute, pushUpdate, cleanup, hcr, hk0, hu, hg, hsr, hwr, hod, hed]
        | ok code =>
          cases hcp : env.copyRes with
          | error e =>
            by_cases h0 : code = 0 <;> cases b <;>
              by_cases hod : env.stdoutData = "" <;> by_cases hed : env.stderrData = "" <;>
              simp [execute, pushUpdate, cleanup, extractResult, hcr, hk0, hu, hg, hsr,
                hwr, hcp, hk, h0, hod, hed] <;>
              split_ifs <;> simp
          | ok arch =>
            by_cases h0 : code = 0 <;> cases b <;>
              by_cases hod : env.stdoutData = "" <;> by_cases hed : env.stderrData = "" <;>
              simp [execute, pushUpdate, cleanup, extractResult, hcr, hk0, hu, hg, hsr,
                hwr, hcp, hk, h0, hod, hed] <;>
              split_ifs <;> simp

/-- Witness for C5 (amended): the all-success environment persists a
terminal status. -/
theorem execute_terminal_when_storage_ok_witness :
    (execute envOk sjClaimed).stored.status = StatusDone ∨
    (execute envOk sjClaimed).stored.status = StatusError ∨
    (execute envOk sjClaimed).stored.status = StatusKilled :=
  execute_terminal_when_storage_ok envOk sjClaimed rfl rfl ⟨false, rfl⟩

/-! ## C7: result extraction -/

/-- C7: after the container exits (create, persist, start and wait all
succeeded and the kill-flag read returned), a `stdout` result source
sets `result` to the bytes of the accumulated stdout field; a `file:`
result source copies the named path out of the container and, for the
single-entry tar archive the backend returns, sets `result` to the
entry body (the header is skipped by the tar reader); a copy-out error
or a tar decoding error sets status `error`. -/
theorem execute_result_extraction (env : ExecEnv) (job0 : SubmittedJob)
    (cid : String) (code : Int) (kb : Bool)
    (hc : env.createRes = .ok cid)
    (hk0 : job0.killRequested = false)
    (hu : env.updateOk = fun _ => true)
    (hs : env.startRes = .ok ())
    (hw : env.waitRes = .ok code)
    (hkr : env.killRes = .ok kb)
    (hg : env.usageRes = .ok ()) :
    (job0.job.resultSource = "stdout" →
      (execute env job0).job.result = strBytes (job0.stdout ++ env.stdoutData)) ∧
    (job0.job.resultSource ≠ "stdout" →
      job0.job.resultSource.startsWith "file:" = true →
      (∀ b, env.copyRes = .ok [TarItem.entry b] →
        (execute env job0).job.result = b ∧
        Ev.copyOut (job0.job.resultSource.drop 5) ∈ (execute env job0).trace) ∧
      (env.copyRes = .error () →
        (execute env job0).job.status = StatusError) ∧
      (∀ arch, env.copyRes = .ok arch → (decodeTar arch).2 = true →
        (execute env job0).job.status = StatusError)) := by
  constructor
  · intro hsrc
    by_cases h0 : code = 0 <;> cases kb <;>
      by_cases hod : env.stdoutData = "" <;> by_cases hed : env.stderrData = "" <;>
      simp [execute, pushUpdate, extractResult, cleanup_job, hc, hk0, hu, hs, hw, hsrc,
        hkr, h0, hod, hed]
  · intro hsrc hpre
    refine ⟨?_, ?_, ?_⟩
    · intro b hcp
      by_cases h0 : code = 0 <;> cases kb <;>
        by_cases hod : env.stdoutData = "" <;> by_cases hed : env.stderrData = "" <;>
        simp [execute, pushUpdate, extractResult, cleanup, decodeTar, hc, hk0, hu, hs,
          hw, hsrc, hpre, hkr, hcp, hg, h0, hod, hed]
    · intro hcp
      by_cases h0 : code = 0 <;> cases kb <;>
        by_cases hod : env.stdoutData = "" <;> by_cases hed : env.stderrData = "" <;>
        simp [execute, pushUpdate, extractResult, cleanup_job, hc, hk0, hu, hs, hw,
          hsrc, hpre, hkr, hcp, h0, hod, hed]
    · intro arch hcp hbad
      by_cases h0 : code = 0 <;> cases kb <;>
        by_cases hod : env.stdoutData = "" <;> by_cases hed : env.stderrData = "" <;>
        simp [execute, pushUpdate, extractResult, cleanup_job, hc, hk0, hu, hs, hw,
          hsrc, hpre, hkr, hcp, hbad, h0, hod, hed]

/-- Witness for C7: in the all-success environment the stdout result is
the captured output bytes. -/
theorem execute_result_extraction_witness :
    (execute envOk sjClaimed).job.result = strBytes ("" ++ "hi") :=
  (execute_result_extraction envOk sjClaimed "c1" 0 false rfl rfl rfl rfl rfl rfl rfl).1 rfl

end Cloudpipe
